import Mathlib

/-!
Shallow embedding of the `sqlalchemist` convenience layer
(`factory/DataSource.py`, `factory/SqlSession.py`, `abstracts/AbstractDAO.py`).

Python dictionaries are modelled as insertion-ordered association lists with
unique keys; a Python call either returns a value or raises an exception
(`Outcome`); calls into the wrapped sqlalchemy engine are modelled as
parameters of type `Outcome _` / `EngineExec` supplied by the caller of the
embedded method, since the engine is an external collaborator.
-/

set_option linter.unusedVariables false

/-- A primitive Python value appearing in rows and configuration. -/
inductive PyVal where
  | int : Int → PyVal
  | str : String → PyVal
deriving DecidableEq

/-- A configuration value passed in `**kwargs`: either a primitive or a
nested dict (such as `connect_args`). -/
inductive ConfigVal where
  | prim : PyVal → ConfigVal
  | dict : List (String × PyVal) → ConfigVal
deriving DecidableEq

/-- The exception kinds the embedded code can raise.  `DataSourceError` is the
layer's own exception class (`exceptions/DataSourceError.py`); the rest stand
for sqlalchemy / built-in Python exception classes. -/
inductive PyExc where
  | dataSourceError : String → PyExc
  | sqlAlchemyError : String → PyExc
  | keyError : String → PyExc
  | attributeError : String → PyExc
  | otherError : String → PyExc
deriving DecidableEq

/-- Outcome of a Python call: it either returns a value or raises. -/
inductive Outcome (α : Type) where
  | returns : α → Outcome α
  | raises : PyExc → Outcome α
deriving DecidableEq

/-- `true` iff the call raised. -/
def Outcome.raisesB : Outcome α → Bool
  | .returns _ => false
  | .raises _ => true

/-- `true` iff the call returned normally. -/
def Outcome.succeeded : Outcome α → Bool
  | .returns _ => true
  | .raises _ => false

/-- Python `d[k]` / `d.get(k)` lookup on an insertion-ordered dict. -/
def dictGet : List (String × α) → String → Option α
  | [], _ => Option.none
  | p :: ps, k => if p.1 = k then some p.2 else dictGet ps k

/-- Python `d[k] = v` / `d.update({k: v})`: replace in place if the key is
present, otherwise append at the end (insertion order). -/
def dictSet : List (String × α) → String → α → List (String × α)
  | [], k, v => [(k, v)]
  | p :: ps, k, v => if p.1 = k then (k, v) :: ps else p :: dictSet ps k v

/-- Python `dict(zip(ks, vs))`: zip truncates at the shorter list, and a later
duplicate key overwrites the earlier entry in place. -/
def dictOfZip (ks : List String) (vs : List PyVal) : List (String × PyVal) :=
  (List.zip ks vs).foldl (fun d p => dictSet d p.1 p.2) []

/-- A mapped row: a column-name-keyed Python dict. -/
abbrev Row := List (String × PyVal)

/-- A value stored in a query-result dict: the column-name list, a row list
(`fetchall`), or an optional single row (`fetchone`). -/
inductive QVal where
  | cols : List String → QVal
  | rows : List (List PyVal) → QVal
  | row : Option (List PyVal) → QVal
deriving DecidableEq

/-! ### `abstracts/AbstractDAO.py` -/

/-- The loop body of `AbstractDAO.map`:
`for data in inp["data"]: arr.append(dict(zip(inp["columns"], data)))`.
The lookup `inp["columns"]` happens inside the loop, once per row, so an
absent `"columns"` key only raises when there is at least one row. -/
def AbstractDAO.mapLoop (inp : List (String × QVal)) :
    List (List PyVal) → List Row → Outcome (List Row)
  | [], arr => .returns arr
  | data :: rest, arr =>
    match dictGet inp "columns" with
    | Option.none => .raises (.keyError "columns")
    | some (QVal.cols cs) => AbstractDAO.mapLoop inp rest (arr ++ [dictOfZip cs data])
    | some _ => .raises (.otherError "TypeError: zip argument")

/-- `AbstractDAO.map(inp)`: reads `inp["data"]`, then builds one dict per row
by zipping `inp["columns"]` with the row's values. -/
def AbstractDAO.map (inp : List (String × QVal)) : Outcome (List Row) :=
  match dictGet inp "data" with
  | Option.none => .raises (.keyError "data")
  | some (QVal.rows ds) => AbstractDAO.mapLoop inp ds []
  | some _ => .raises (.otherError "TypeError: not iterable")

/-- `res.get(row[key_column])` followed by the create-or-append branch of
`AbstractDAO.hash_map`: if the key is absent a fresh one-element bucket is
appended at the end, otherwise the row is appended to the existing bucket in
place. -/
def AbstractDAO.bucketAdd : List (PyVal × List Row) → PyVal → Row → List (PyVal × List Row)
  | [], k, row => [(k, [row])]
  | p :: ps, k, row =>
    if p.1 = k then (p.1, p.2 ++ [row]) :: ps else p :: AbstractDAO.bucketAdd ps k row

/-- The loop of `AbstractDAO.hash_map` over the mapped rows; `row[key_column]`
raises `KeyError` when the key column is absent from a mapped row. -/
def AbstractDAO.hashMapLoop (key : String) :
    List Row → List (PyVal × List Row) → Outcome (List (PyVal × List Row))
  | [], res => .returns res
  | row :: rest, res =>
    match dictGet row key with
    | Option.none => .raises (.keyError key)
    | some k => AbstractDAO.hashMapLoop key rest (AbstractDAO.bucketAdd res k row)

/-- `AbstractDAO.hash_map(inp, key_column)`: `arr = cls.map(inp)` then group
the mapped rows into an insertion-ordered dict of buckets. -/
def AbstractDAO.hash_map (inp : List (String × QVal)) (key : String) :
    Outcome (List (PyVal × List Row)) :=
  match AbstractDAO.map inp with
  | .raises e => .raises e
  | .returns arr => AbstractDAO.hashMapLoop key arr []

/-! ### `factory/SqlSession.py` -/

/-- Observable state of a sqlalchemy `Connection` as read by `is_available`. -/
structure ConnState where
  closed : Bool
  invalidated : Bool
deriving DecidableEq

/-- State of a `SqlSession` instance: the `_connection` and `_session`
attributes (both `None` until `init` is called; `_session` carries no further
observable state in this layer, so it is modelled as `Option Unit`). -/
structure SqlSessionState where
  connection : Option ConnState
  session : Option Unit
deriving DecidableEq

/-- A freshly constructed `SqlSession()`: both attributes hold the class-level
default `None`. -/
def SqlSession.mk0 : SqlSessionState := { connection := Option.none, session := Option.none }

/-- `SqlSession.is_available`:
`self._connection is not None and not self._connection.closed and not self._connection.invalidated`. -/
def SqlSession.is_available (st : SqlSessionState) : Bool :=
  match st.connection with
  | Option.none => false
  | some c => !c.closed && !c.invalidated

/-- `SqlSession.check_availability`: raises `DataSourceError` unless
`is_available`. -/
def SqlSession.check_availability (st : SqlSessionState) : Outcome Unit :=
  if SqlSession.is_available st then .returns ()
  else .raises (.dataSourceError "Current connection is not in available state.")

/-- `SqlSession.commit`: `self._session.commit()`.  On a session that was
never initialized, `self._session` is `None` and attribute access raises
`AttributeError`; otherwise the call is the engine's commit, whose outcome is
the parameter `engineCommit`. -/
def SqlSession.commit (st : SqlSessionState) (engineCommit : Outcome Unit) : Outcome Unit :=
  match st.session with
  | Option.none => .raises (.attributeError "NoneType object has no attribute commit")
  | some _ => engineCommit

/-- `SqlSession.rollback`: `self._session.rollback()`. -/
def SqlSession.rollback (st : SqlSessionState) (engineRollback : Outcome Unit) : Outcome Unit :=
  match st.session with
  | Option.none => .raises (.attributeError "NoneType object has no attribute rollback")
  | some _ => engineRollback

/-- `SqlSession.close`: `try: self._session.close(); self._connection.close()`
with `except ...: raise e`, i.e. every exception is re-raised unchanged.
`sessClose` / `connClose` are the outcomes of the two engine calls. -/
def SqlSession.close (st : SqlSessionState)
    (sessClose connClose : Outcome Unit) : Outcome Unit :=
  match st.session with
  | Option.none => .raises (.attributeError "NoneType object has no attribute close")
  | some _ =>
    match sessClose with
    | .raises e => .raises e
    | .returns _ =>
      match st.connection with
      | Option.none => .raises (.attributeError "NoneType object has no attribute close")
      | some _ => connClose

/-- Outcome of the engine step `result = self._connection.execute(text(sql), params)`
together with reading `result.cursor.description` and fetching: either column
names plus rows, or a `SQLAlchemyError`, or some other exception. -/
inductive EngineExec where
  | ok : List String → List (List PyVal) → EngineExec
  | sqlErr : String → EngineExec
  | otherErr : String → EngineExec
deriving DecidableEq

/-- `SqlSession.select`: the `check_needed` decorator is commented out in the
source, so there is no availability guard; the method goes straight to
`self._connection.execute` (an `AttributeError` when `_connection` is `None`).
A `SQLAlchemyError` is wrapped into `DataSourceError`; any other exception is
re-raised unchanged.  On success it returns
`{'column_names': column_names, 'data': result.fetchall()}`. -/
def SqlSession.select (st : SqlSessionState) (exec : EngineExec) :
    Outcome (List (String × QVal)) :=
  match st.connection with
  | Option.none => .raises (.attributeError "NoneType object has no attribute execute")
  | some _ =>
    match exec with
    | .ok cols rows =>
      .returns [("column_names", QVal.cols cols), ("data", QVal.rows rows)]
    | .sqlErr m => .raises (.dataSourceError ("database select Error: " ++ m))
    | .otherErr m => .raises (.otherError m)

/-- `SqlSession.select_one`: as `select`, but the data entry is
`result.fetchone()` — the first available row or `None`. -/
def SqlSession.select_one (st : SqlSessionState) (exec : EngineExec) :
    Outcome (List (String × QVal)) :=
  match st.connection with
  | Option.none => .raises (.attributeError "NoneType object has no attribute execute")
  | some _ =>
    match exec with
    | .ok cols rows =>
      .returns [("column_names", QVal.cols cols), ("data", QVal.row rows.head?)]
    | .sqlErr m => .raises (.dataSourceError ("database select Error: " ++ m))
    | .otherErr m => .raises (.otherError m)

/-- The `try` suite of `SqlSession.insert` / `SqlSession.execute`:
`self._session.execute(text(sql_template), ...)` then `self.commit()`.
`exec` is the engine outcome of `_session.execute`; `engineCommit` that of the
engine commit. -/
def SqlSession.writeBody (st : SqlSessionState) (exec engineCommit : Outcome Unit) :
    Outcome Unit :=
  match st.session with
  | Option.none => .raises (.attributeError "NoneType object has no attribute execute")
  | some _ =>
    match exec with
    | .raises e => .raises e
    | .returns _ => SqlSession.commit st engineCommit

/-- The `result` local plus the exception each `except` clause of
`insert`/`execute` would re-raise: on `SQLAlchemyError` the clause sets
`result = False` and raises a wrapping `DataSourceError`; on any other
exception it sets `result = False` and re-raises it; on success `result`
stays `True` and nothing is pending. -/
def SqlSession.writeRun (st : SqlSessionState) (exec engineCommit : Outcome Unit) :
    Bool × Option PyExc :=
  match SqlSession.writeBody st exec engineCommit with
  | .returns _ => (true, Option.none)
  | .raises (PyExc.sqlAlchemyError m) =>
    (false, some (.dataSourceError ("database select Error: " ++ m)))
  | .raises e => (false, some e)

/-- `SqlSession.insert`: the method body ends in `finally: return result`.
Per the Python language rules, a `return` executed in a `finally` suite
discards any exception pending from the `try`/`except` suites, so the call
always returns the boolean `result` and the exception raised by the `except`
clause never reaches the caller. -/
def SqlSession.insert (st : SqlSessionState) (exec engineCommit : Outcome Unit) :
    Outcome Bool :=
  Outcome.returns (SqlSession.writeRun st exec engineCommit).1

/-- The exception that `SqlSession.insert` constructs and raises in its
`except` clause on failure, which the `return` in the `finally` suite then
discards. -/
def SqlSession.insertSuppressed (st : SqlSessionState) (exec engineCommit : Outcome Unit) :
    Option PyExc :=
  (SqlSession.writeRun st exec engineCommit).2

/-- `SqlSession.execute`: byte-for-byte the same try/except/finally structure
as `insert` (only the SQL-parameter shape differs, which is opaque here), so
it too always returns the boolean and never raises. -/
def SqlSession.execute (st : SqlSessionState) (exec engineCommit : Outcome Unit) :
    Outcome Bool :=
  Outcome.returns (SqlSession.writeRun st exec engineCommit).1

/-- The exception `SqlSession.execute` constructs on failure and then discards
via the `return` in its `finally` suite. -/
def SqlSession.executeSuppressed (st : SqlSessionState) (exec engineCommit : Outcome Unit) :
    Option PyExc :=
  (SqlSession.writeRun st exec engineCommit).2

/-- Events observable during a scope exit. -/
inductive SessionEvent where
  | commitCall : SessionEvent
  | closeCall : SessionEvent
deriving DecidableEq

/-- `self.commit()` as a traced step: it emits its event and yields its
outcome. -/
def SqlSession.commitT (st : SqlSessionState) (engineCommit : Outcome Unit) :
    List SessionEvent × Outcome Unit :=
  ([SessionEvent.commitCall], SqlSession.commit st engineCommit)

/-- `self.close()` as a traced step. -/
def SqlSession.closeT (st : SqlSessionState) (sessClose connClose : Outcome Unit) :
    List SessionEvent × Outcome Unit :=
  ([SessionEvent.closeCall], SqlSession.close st sessClose connClose)

/-- `SqlSession.__exit__`: `try: self.commit() except ...: print(e)` then
`self.close()`.  The commit step always runs first; whatever it raises is
caught and printed (so its outcome does not influence control flow), and
`close` is then called unconditionally, its outcome becoming the outcome of
the scope exit. -/
def SqlSession.exitScope (st : SqlSessionState)
    (engineCommit sessClose connClose : Outcome Unit) :
    List SessionEvent × Outcome Unit :=
  let c := SqlSession.commitT st engineCommit
  let swallowed : Unit := match c.2 with
    | .returns _ => ()
    | .raises _ => ()
  let cl := SqlSession.closeT st sessClose connClose
  (c.1 ++ cl.1, cl.2)

/-! ### `factory/DataSource.py` -/

/-- Observable state of the sqlalchemy `Engine` held in `_engine`: whether its
pool has been disposed.  `Engine.dispose()` discards the pool but the engine
object itself stays usable (and, crucially, stays bound to `_engine` — the
source never assigns `self._engine = None`). -/
structure EngineState where
  poolDisposed : Bool
deriving DecidableEq

/-- State of a `DataSource` instance: the `_engine` attribute. -/
structure DataSourceState where
  engine : Option EngineState
deriving DecidableEq

/-- A `DataSource` on which `init` was never called: `_engine` holds the
class-level default `None`. -/
def DataSource.mk0 : DataSourceState := { engine := Option.none }

/-- `DataSource.is_initialized`: `self._engine is not None`. -/
def DataSource.is_initialized (st : DataSourceState) : Bool :=
  st.engine.isSome

/-- `DataSource.check_initialization`: raises `DataSourceError` unless
initialized. -/
def DataSource.check_initialization (st : DataSourceState) : Outcome Unit :=
  if DataSource.is_initialized st then .returns ()
  else .raises (.dataSourceError
    "database connection pool has not been initialized properly. Maybe something went wrong..")

/-- The `requires_init` decorator: run `self.check_initialization()` first and
only on success run the wrapped method body. -/
def requires_init (st : DataSourceState) (body : DataSourceState → Outcome α) : Outcome α :=
  match DataSource.check_initialization st with
  | .raises e => .raises e
  | .returns _ => body st

/-- The keyword arguments actually handed to `create_engine` by
`DataSource.init`: `kwargs.update({'connect_args': {'connect_timeout': 10}})`
replaces the whole `connect_args` entry with the fixed one-key dict. -/
def DataSource.createEngineKwargs (kwargs : List (String × ConfigVal)) :
    List (String × ConfigVal) :=
  dictSet kwargs "connect_args" (ConfigVal.dict [("connect_timeout", PyVal.int 10)])

/-- The full argument list handed to `create_engine(*args, **kwargs)`:
positional arguments pass through untouched, keyword arguments after the
`connect_args` update. -/
def DataSource.createEngineCall (args : List ConfigVal) (kwargs : List (String × ConfigVal)) :
    List ConfigVal × List (String × ConfigVal) :=
  (args, DataSource.createEngineKwargs kwargs)

/-- `DataSource.init`: binds `self._engine` (and `self._pool`) to a fresh
engine whose pool is live.  There is no guard: repeated calls rebind. -/
def DataSource.init (st : DataSourceState) : DataSourceState :=
  { engine := some { poolDisposed := false } }

/-- `DataSource.get_session` (decorated with `requires_init`): acquires a
connection from the engine (`connect` is the engine outcome) and wraps it in a
`SqlSession` whose `init` binds `_connection` and `_session`. -/
def DataSource.get_session (st : DataSourceState) (connect : Outcome ConnState) :
    Outcome SqlSessionState :=
  requires_init st (fun _ =>
    match connect with
    | .raises e => .raises e
    | .returns c => .returns { connection := some c, session := some () })

/-- `DataSource.release_session` (decorated with `requires_init`): the body is
`try: del session except ...: print(e)` — it never raises once past the
guard. -/
def DataSource.release_session (st : DataSourceState) : Outcome Unit :=
  requires_init st (fun _ => .returns ())

/-- `DataSource.close` (decorated with `requires_init`):
`self._engine.dispose()`.  The pool is disposed but `_engine` stays bound —
the method never assigns `None` — so the resulting state is still
initialized. -/
def DataSource.close (st : DataSourceState) : Outcome DataSourceState :=
  requires_init st (fun s =>
    match s.engine with
    | Option.none => .raises (.attributeError "NoneType object has no attribute dispose")
    | some _ => .returns { engine := some { poolDisposed := true } })

/-! ### Characterization helpers for `hash_map`

These are analysis-side definitions used to state what the grouping loop
computes; they are not part of the source. -/

/-- The `key`-column values of a row list, in row order. -/
def keysOf (key : String) (rows : List Row) : List PyVal :=
  rows.filterMap (fun r => dictGet r key)

/-- Deduplicate, keeping the first occurrence of each value (accumulator
form). -/
def firstSeenAux : List PyVal → List PyVal → List PyVal
  | acc, [] => acc
  | acc, k :: ks => firstSeenAux (if k ∈ acc then acc else acc ++ [k]) ks

/-- Deduplicate a list of key values, keeping first occurrences in order. -/
def firstSeen (ks : List PyVal) : List PyVal :=
  firstSeenAux [] ks

/-- The rows of `rows` whose `key`-column value is `k`, in row order. -/
def keyFiber (key : String) (rows : List Row) (k : PyVal) : List Row :=
  rows.filter (fun r => decide (dictGet r key = some k))

/-- The grouping `hash_map` computes, in closed form: one bucket per key value
in first-seen order, each bucket the fiber of its key. -/
def groupSpec (key : String) (rows : List Row) : List (PyVal × List Row) :=
  (firstSeen (keysOf key rows)).map (fun k => (k, keyFiber key rows k))

/-! ### Helper lemmas -/

theorem dictGet_dictSet_same (d : List (String × α)) (k : String) (v : α) :
    dictGet (dictSet d k v) k = some v := by
  induction d with
  | nil => simp [dictSet, dictGet]
  | cons p ps ih =>
    by_cases h : p.1 = k
    · simp [dictSet, dictGet, h]
    · simp [dictSet, dictGet, h, ih]

theorem dictGet_dictSet_other (d : List (String × α)) (k k' : String) (v : α)
    (h : k' ≠ k) : dictGet (dictSet d k v) k' = dictGet d k' := by
  induction d with
  | nil =>
    simp only [dictSet, dictGet]
    rw [if_neg (fun hh => h hh.symm)]
  | cons p ps ih =>
    by_cases hp : p.1 = k
    · simp only [dictSet, if_pos hp, dictGet]
      rw [if_neg (fun hh => h hh.symm), if_neg (hp ▸ fun hh => h hh.symm)]
    · simp only [dictSet, if_neg hp, dictGet]
      by_cases hq : p.1 = k'
      · rw [if_pos hq, if_pos hq]
      · rw [if_neg hq, if_neg hq, ih]

theorem dictSet_fresh (d : List (String × α)) (k : String) (v : α)
    (h : ∀ q ∈ d, q.1 ≠ k) : dictSet d k v = d ++ [(k, v)] := by
  induction d with
  | nil => rfl
  | cons p ps ih =>
    have hp : p.1 ≠ k := h p (List.mem_cons_self p ps)
    simp only [dictSet, if_neg hp, List.cons_append, List.cons.injEq, true_and]
    exact ih (fun q hq => h q (List.mem_cons_of_mem p hq))

theorem foldl_dictSet_fresh (ps : List (String × α)) :
    ∀ acc : List (String × α), (ps.map Prod.fst).Nodup →
    (∀ p ∈ ps, ∀ q ∈ acc, q.1 ≠ p.1) →
    ps.foldl (fun d p => dictSet d p.1 p.2) acc = acc ++ ps := by
  induction ps with
  | nil => intro acc _ _; simp
  | cons p ps ih =>
    intro acc hnd hfresh
    have h1 : dictSet acc p.1 p.2 = acc ++ [p] :=
      dictSet_fresh acc p.1 p.2 (fun q hq => hfresh p (List.mem_cons_self p ps) q hq)
    simp only [List.foldl_cons, h1]
    have hnd' : (ps.map Prod.fst).Nodup := (List.nodup_cons.mp (by simpa using hnd)).2
    have hfresh' : ∀ r ∈ ps, ∀ q ∈ acc ++ [p], q.1 ≠ r.1 := by
      intro r hr q hq
      rcases List.mem_append.mp hq with hq | hq
      · exact hfresh r (List.mem_cons_of_mem p hr) q hq
      · have hqp : q = p := by simpa using hq
        rw [hqp]
        have hp1 : p.1 ∉ ps.map Prod.fst := (List.nodup_cons.mp (by simpa using hnd)).1
        intro hcontra
        exact hp1 (hcontra ▸ List.mem_map_of_mem Prod.fst hr)
    rw [ih (acc ++ [p]) hnd' hfresh']
    simp

theorem dictOfZip_eq_zip (cs : List String) (vs : List PyVal)
    (hnd : cs.Nodup) (hlen : cs.length ≤ vs.length) :
    dictOfZip cs vs = cs.zip vs := by
  unfold dictOfZip
  have hfst : (cs.zip vs).map Prod.fst = cs := List.map_fst_zip cs vs hlen
  have := foldl_dictSet_fresh (cs.zip vs) [] (by rw [hfst]; exact hnd) (by simp)
  simpa using this

theorem mapLoop_returns (inp : List (String × QVal)) (cs : List String)
    (hcols : dictGet inp "columns" = some (QVal.cols cs)) :
    ∀ (ds : List (List PyVal)) (arr : List Row),
    AbstractDAO.mapLoop inp ds arr = .returns (arr ++ ds.map (fun d => dictOfZip cs d)) := by
  intro ds
  induction ds with
  | nil => intro arr; simp [AbstractDAO.mapLoop]
  | cons d rest ih =>
    intro arr
    simp only [AbstractDAO.mapLoop, hcols, ih, List.map_cons, List.append_assoc,
      List.singleton_append]

theorem map_returns (inp : List (String × QVal)) (cs : List String)
    (ds : List (List PyVal))
    (hdata : dictGet inp "data" = some (QVal.rows ds))
    (hcols : dictGet inp "columns" = some (QVal.cols cs)) :
    AbstractDAO.map inp = .returns (ds.map (fun d => dictOfZip cs d)) := by
  unfold AbstractDAO.map
  rw [hdata]
  simpa using mapLoop_returns inp cs hcols ds []

theorem firstSeenAux_append (ks ls : List PyVal) :
    ∀ acc, firstSeenAux acc (ks ++ ls) = firstSeenAux (firstSeenAux acc ks) ls := by
  induction ks with
  | nil => intro acc; rfl
  | cons k ks ih =>
    intro acc
    simp only [List.cons_append, firstSeenAux]
    exact ih _

theorem mem_firstSeenAux (x : PyVal) (ks : List PyVal) :
    ∀ acc, x ∈ firstSeenAux acc ks ↔ x ∈ acc ∨ x ∈ ks := by
  induction ks with
  | nil => intro acc; simp [firstSeenAux]
  | cons k ks ih =>
    intro acc
    simp only [firstSeenAux, ih, List.mem_cons]
    by_cases hk : k ∈ acc
    · rw [if_pos hk]
      constructor
      · rintro (h | h)
        · exact Or.inl h
        · exact Or.inr (Or.inr h)
      · rintro (h | h | h)
        · exact Or.inl h
        · exact Or.inl (h ▸ hk)
        · exact Or.inr h
    · rw [if_neg hk]
      simp only [List.mem_append, List.mem_singleton]
      tauto

theorem nodup_firstSeenAux (ks : List PyVal) :
    ∀ acc, acc.Nodup → (firstSeenAux acc ks).Nodup := by
  induction ks with
  | nil => intro acc h; exact h
  | cons k ks ih =>
    intro acc hacc
    simp only [firstSeenAux]
    by_cases hk : k ∈ acc
    · rw [if_pos hk]; exact ih acc hacc
    · rw [if_neg hk]
      refine ih (acc ++ [k]) ?_
      simp [List.nodup_append, hacc, List.Disjoint]
      intro a ha hak
      exact hk (hak ▸ ha)

theorem mem_firstSeen (x : PyVal) (ks : List PyVal) : x ∈ firstSeen ks ↔ x ∈ ks := by
  simp [firstSeen, mem_firstSeenAux]

theorem nodup_firstSeen (ks : List PyVal) : (firstSeen ks).Nodup :=
  nodup_firstSeenAux ks [] List.nodup_nil

theorem firstSeen_append_one (ks : List PyVal) (k : PyVal) :
    firstSeen (ks ++ [k]) =
      if k ∈ firstSeen ks then firstSeen ks else firstSeen ks ++ [k] := by
  simp only [firstSeen, firstSeenAux_append, firstSeenAux]

theorem keysOf_append_one (key : String) (prev : List Row) (row : Row) (k : PyVal)
    (h : dictGet row key = some k) :
    keysOf key (prev ++ [row]) = keysOf key prev ++ [k] := by
  simp [keysOf, List.filterMap_append, h]

theorem keyFiber_append_one (key : String) (prev : List Row) (row : Row) (k k' : PyVal)
    (h : dictGet row key = some k) :
    keyFiber key (prev ++ [row]) k' =
      keyFiber key prev k' ++ if k = k' then [row] else [] := by
  simp only [keyFiber, List.filter_append]
  congr 1
  by_cases hk : k = k'
  · simp [List.filter, h, hk]
  · simp [List.filter, h, hk]

theorem keyFiber_eq_nil_of_not_mem (key : String) (prev : List Row) (k : PyVal)
    (h : k ∉ keysOf key prev) : keyFiber key prev k = [] := by
  refine List.filter_eq_nil_iff.mpr ?_
  intro r hr
  simp only [decide_eq_true_eq]
  intro hcontra
  exact h (List.mem_filterMap.mpr ⟨r, hr, hcontra⟩)

theorem bucketAdd_map_absent (g : PyVal → List Row) (k : PyVal) (row : Row) :
    ∀ s : List PyVal, k ∉ s →
    AbstractDAO.bucketAdd (s.map (fun x => (x, g x))) k row =
      s.map (fun x => (x, g x)) ++ [(k, [row])] := by
  intro s
  induction s with
  | nil => intro _; rfl
  | cons a s ih =>
    intro hk
    have hak : a ≠ k := fun hh => hk (hh ▸ List.mem_cons_self a s)
    simp only [List.map_cons, AbstractDAO.bucketAdd, if_neg hak, List.cons_append,
      List.cons.injEq, true_and]
    exact ih (fun hh => hk (List.mem_cons_of_mem a hh))

theorem bucketAdd_map_present (g : PyVal → List Row) (k : PyVal) (row : Row) :
    ∀ s : List PyVal, s.Nodup → k ∈ s →
    AbstractDAO.bucketAdd (s.map (fun x => (x, g x))) k row =
      s.map (fun x => (x, g x ++ if x = k then [row] else [])) := by
  intro s
  induction s with
  | nil => intro _ h; exact absurd h (List.not_mem_nil k)
  | cons a s ih =>
    intro hnd hk
    have hnd' := List.nodup_cons.mp hnd
    by_cases hak : a = k
    · simp only [List.map_cons, AbstractDAO.bucketAdd, if_pos hak, if_pos hak,
        List.cons.injEq]
      constructor
      · trivial
      · refine (List.map_congr_left ?_).symm
        intro x hx
        have hxk : x ≠ k := fun hh => hnd'.1 (hak ▸ hh ▸ hx)
        simp [hxk]
    · simp only [List.map_cons, AbstractDAO.bucketAdd, if_neg hak, List.cons.injEq]
      constructor
      · simp [hak]
      · have hk' : k ∈ s := by
          rcases List.mem_cons.mp hk with hh | hh
          · exact absurd hh.symm hak
          · exact hh
        exact ih hnd'.2 hk'

theorem bucketAdd_groupSpec (key : String) (prev : List Row) (row : Row) (k : PyVal)
    (h : dictGet row key = some k) :
    AbstractDAO.bucketAdd (groupSpec key prev) k row = groupSpec key (prev ++ [row]) := by
  unfold groupSpec
  rw [keysOf_append_one key prev row k h, firstSeen_append_one]
  by_cases hk : k ∈ firstSeen (keysOf key prev)
  · rw [if_pos hk]
    rw [bucketAdd_map_present (keyFiber key prev) k row _ (nodup_firstSeen _) hk]
    refine List.map_congr_left ?_
    intro x hx
    rw [keyFiber_append_one key prev row k x h]
    congr 1
    by_cases hxk : x = k
    · simp [hxk]
    · rw [if_neg hxk, if_neg (fun hh => hxk hh.symm)]
  · rw [if_neg hk]
    rw [bucketAdd_map_absent (keyFiber key prev) k row _ hk]
    rw [List.map_append]
    congr 1
    · refine List.map_congr_left ?_
      intro x hx
      rw [keyFiber_append_one key prev row k x h]
      have hxk : k ≠ x := fun hh => hk (hh ▸ hx)
      simp [hxk]
    · simp only [List.map_cons, List.map_nil]
      rw [keyFiber_append_one key prev row k k h]
      rw [keyFiber_eq_nil_of_not_mem key prev k (fun hh => hk ((mem_firstSeen k _).mpr hh))]
      simp

theorem hashMapLoop_char (key : String) :
    ∀ (rows prev : List Row), (∀ r ∈ rows, (dictGet r key).isSome = true) →
    AbstractDAO.hashMapLoop key rows (groupSpec key prev) =
      .returns (groupSpec key (prev ++ rows)) := by
  intro rows
  induction rows with
  | nil => intro prev _; simp [AbstractDAO.hashMapLoop]
  | cons row rest ih =>
    intro prev h
    have hrow : (dictGet row key).isSome = true := h row (List.mem_cons_self row rest)
    obtain ⟨k, hk⟩ := Option.isSome_iff_exists.mp hrow
    simp only [AbstractDAO.hashMapLoop, hk]
    rw [bucketAdd_groupSpec key prev row k hk]
    have hrest : ∀ r ∈ rest, (dictGet r key).isSome = true :=
      fun r hr => h r (List.mem_cons_of_mem row hr)
    rw [ih (prev ++ [row]) hrest]
    simp

theorem hash_map_char (inp : List (String × QVal)) (key : String) (rows : List Row)
    (hmap : AbstractDAO.map inp = .returns rows)
    (hkeys : ∀ r ∈ rows, (dictGet r key).isSome = true) :
    AbstractDAO.hash_map inp key = .returns (groupSpec key rows) := by
  unfold AbstractDAO.hash_map
  rw [hmap]
  have h0 : groupSpec key [] = [] := rfl
  have := hashMapLoop_char key rows [] hkeys
  rw [h0] at this
  simpa using this

theorem keyFiber_cons_eq (key : String) (r : Row) (l : List Row) (k0 k : PyVal)
    (hr : dictGet r key = some k0) (h : k0 = k) :
    keyFiber key (r :: l) k = r :: keyFiber key l k := by
  simp [keyFiber, List.filter_cons, hr, h]

theorem keyFiber_cons_ne (key : String) (r : Row) (l : List Row) (k0 k : PyVal)
    (hr : dictGet r key = some k0) (h : k0 ≠ k) :
    keyFiber key (r :: l) k = keyFiber key l k := by
  simp [keyFiber, List.filter_cons, hr, h]

theorem flatten_fibers_cons (key : String) (r : Row) (l : List Row) (k0 : PyVal)
    (hr : dictGet r key = some k0) :
    ∀ ks : List PyVal, ks.Nodup → k0 ∈ ks →
    List.Perm ((ks.map (fun k => keyFiber key (r :: l) k)).flatten)
      (r :: (ks.map (fun k => keyFiber key l k)).flatten) := by
  intro ks
  induction ks with
  | nil => intro _ h; exact absurd h (List.not_mem_nil k0)
  | cons a ks ih =>
    intro hnd hk
    have hnd' := List.nodup_cons.mp hnd
    by_cases hak : k0 = a
    · have hhead := keyFiber_cons_eq key r l k0 a hr hak
      have htail : ks.map (fun k => keyFiber key (r :: l) k) =
          ks.map (fun k => keyFiber key l k) := by
        refine List.map_congr_left ?_
        intro x hx
        exact keyFiber_cons_ne key r l k0 x hr (fun hh => hnd'.1 (hak ▸ hh ▸ hx))
      simp only [List.map_cons, hhead, htail, List.flatten_cons, List.cons_append]
      exact List.Perm.refl _
    · have hhead := keyFiber_cons_ne key r l k0 a hr hak
      have hk' : k0 ∈ ks := by
        rcases List.mem_cons.mp hk with hh | hh
        · exact absurd hh hak
        · exact hh
      simp only [List.map_cons, hhead, List.flatten_cons]
      refine List.Perm.trans (List.Perm.append_left (keyFiber key l a) (ih hnd'.2 hk')) ?_
      exact List.perm_middle

theorem flatten_fibers_perm (key : String) :
    ∀ (l : List Row) (ks : List PyVal), ks.Nodup →
    (∀ r ∈ l, ∃ k, dictGet r key = some k ∧ k ∈ ks) →
    List.Perm ((ks.map (fun k => keyFiber key l k)).flatten) l := by
  intro l
  induction l with
  | nil =>
    intro ks _ _
    have : ks.map (fun k => keyFiber key [] k) = ks.map (fun _ => []) := by
      refine List.map_congr_left ?_
      intro x _
      rfl
    rw [this]
    simp
  | cons r l ih =>
    intro ks hnd h
    obtain ⟨k0, hk0, hmem⟩ := h r (List.mem_cons_self r l)
    refine List.Perm.trans (flatten_fibers_cons key r l k0 hk0 ks hnd hmem) ?_
    exact List.Perm.cons r (ih ks hnd (fun q hq => h q (List.mem_cons_of_mem r hq)))

theorem groupSpec_flatten_perm (key : String) (rows : List Row)
    (h : ∀ r ∈ rows, (dictGet r key).isSome = true) :
    List.Perm (((groupSpec key rows).map Prod.snd).flatten) rows := by
  unfold groupSpec
  rw [List.map_map]
  have hcomp : (Prod.snd ∘ fun k => (k, keyFiber key rows k)) =
      fun k => keyFiber key rows k := rfl
  rw [hcomp]
  refine flatten_fibers_perm key rows (firstSeen (keysOf key rows)) (nodup_firstSeen _) ?_
  intro r hr
  obtain ⟨k, hk⟩ := Option.isSome_iff_exists.mp (h r hr)
  exact ⟨k, hk, (mem_firstSeen k _).mpr (List.mem_filterMap.mpr ⟨r, hr, hk⟩)⟩

theorem groupSpec_key_correct (key : String) (rows : List Row) (k : PyVal) (b : List Row)
    (hmem : (k, b) ∈ groupSpec key rows) : ∀ r ∈ b, dictGet r key = some k := by
  unfold groupSpec at hmem
  obtain ⟨x, hx, heq⟩ := List.mem_map.mp hmem
  have hxk : x = k := congrArg Prod.fst heq
  have hb : keyFiber key rows x = b := congrArg Prod.snd heq
  intro r hrb
  rw [← hb] at hrb
  have := List.of_mem_filter hrb
  rw [hxk] at this
  exact of_decide_eq_true this

theorem groupSpec_bucket_sublist (key : String) (rows : List Row) (k : PyVal) (b : List Row)
    (hmem : (k, b) ∈ groupSpec key rows) : b.Sublist rows := by
  unfold groupSpec at hmem
  obtain ⟨x, hx, heq⟩ := List.mem_map.mp hmem
  have hb : keyFiber key rows x = b := congrArg Prod.snd heq
  rw [← hb]
  exact List.filter_sublist rows

/-! ### Claim theorems -/

/-- C1 (counterexample): at a concrete failing engine call, `insert` returns
`False` and does not raise — the `DataSourceError` built in the `except`
clause is discarded by the `return` in the `finally` suite — refuting the
claim that a failing call "returns false and simultaneously raises".
Likewise for `execute` with a non-engine failure. -/
theorem C1_failure_returns_false_without_raising :
    SqlSession.insert
        { connection := some { closed := false, invalidated := false }, session := some () }
        (Outcome.raises (PyExc.sqlAlchemyError "duplicate key")) (Outcome.returns ()) =
      Outcome.returns false ∧
    (SqlSession.insert
        { connection := some { closed := false, invalidated := false }, session := some () }
        (Outcome.raises (PyExc.sqlAlchemyError "duplicate key")) (Outcome.returns ())).raisesB =
      false ∧
    SqlSession.insertSuppressed
        { connection := some { closed := false, invalidated := false }, session := some () }
        (Outcome.raises (PyExc.sqlAlchemyError "duplicate key")) (Outcome.returns ()) =
      some (PyExc.dataSourceError "database select Error: duplicate key") ∧
    SqlSession.execute
        { connection := some { closed := false, invalidated := false }, session := some () }
        (Outcome.raises (PyExc.otherError "disk full")) (Outcome.returns ()) =
      Outcome.returns false ∧
    SqlSession.executeSuppressed
        { connection := some { closed := false, invalidated := false }, session := some () }
        (Outcome.raises (PyExc.otherError "disk full")) (Outcome.returns ()) =
      some (PyExc.otherError "disk full") :=
  ⟨rfl, rfl, rfl, rfl, rfl⟩

/-- C1 (amended): `insert` and `execute` always return the boolean `result`
(`true` iff the execute-then-commit body succeeded) and never raise: the
`return result` in the `finally` suite discards the exception the `except`
clauses construct, so callers can only detect failure via the returned
boolean. -/
theorem C1_write_calls_return_bool_never_raise (st : SqlSessionState)
    (e c : Outcome Unit) :
    SqlSession.insert st e c = Outcome.returns (SqlSession.writeBody st e c).succeeded ∧
    SqlSession.execute st e c = Outcome.returns (SqlSession.writeBody st e c).succeeded ∧
    (SqlSession.insert st e c).raisesB = false ∧
    (SqlSession.execute st e c).raisesB = false := by
  refine ⟨?_, ?_, rfl, rfl⟩ <;>
  · show Outcome.returns (SqlSession.writeRun st e c).1 = _
    unfold SqlSession.writeRun
    cases hb : SqlSession.writeBody st e c with
    | returns v => rfl
    | raises ex => cases ex <;> rfl

/-- C2 (code bug witness): `select` stores the column names under the key
`'column_names'`, but `AbstractDAO.map` reads `inp["columns"]`; on the
spec's own scenario (columns `["id","name"]`, rows `[(1,"a"),(2,"b")]`)
`map` applied to `select`'s return value raises `KeyError('columns')`,
while `map` applied to the dict shaped as `map`'s docstring documents
(`{"columns": ..., "data": ...}`) yields exactly the mappings the claim
expects. -/
theorem C2_select_output_key_mismatch_breaks_map :
    SqlSession.select
        { connection := some { closed := false, invalidated := false }, session := some () }
        (EngineExec.ok ["id", "name"]
          [[PyVal.int 1, PyVal.str "a"], [PyVal.int 2, PyVal.str "b"]]) =
      Outcome.returns [("column_names", QVal.cols ["id", "name"]),
        ("data", QVal.rows [[PyVal.int 1, PyVal.str "a"], [PyVal.int 2, PyVal.str "b"]])] ∧
    AbstractDAO.map [("column_names", QVal.cols ["id", "name"]),
        ("data", QVal.rows [[PyVal.int 1, PyVal.str "a"], [PyVal.int 2, PyVal.str "b"]])] =
      Outcome.raises (PyExc.keyError "columns") ∧
    AbstractDAO.map [("columns", QVal.cols ["id", "name"]),
        ("data", QVal.rows [[PyVal.int 1, PyVal.str "a"], [PyVal.int 2, PyVal.str "b"]])] =
      Outcome.returns [[("id", PyVal.int 1), ("name", PyVal.str "a")],
        [("id", PyVal.int 2), ("name", PyVal.str "b")]] :=
  ⟨rfl, rfl, rfl⟩

/-- C3 (counterexample): on a session whose connection is closed,
`is_available` is `false`, yet `select` does not fail fast with the
"connection not available" `DataSourceError`: the `check_needed` decorator is
commented out, so the method goes straight to the engine call, and with a
succeeding engine call it returns a result. -/
theorem C3_closed_connection_select_without_guard :
    SqlSession.is_available
        { connection := some { closed := true, invalidated := false }, session := some () } =
      false ∧
    SqlSession.select
        { connection := some { closed := true, invalidated := false }, session := some () }
        (EngineExec.ok ["id"] []) =
      Outcome.returns [("column_names", QVal.cols ["id"]), ("data", QVal.rows [])] ∧
    SqlSession.select
        { connection := some { closed := true, invalidated := false }, session := some () }
        (EngineExec.ok ["id"] []) ≠
      Outcome.raises (PyExc.dataSourceError "Current connection is not in available state.") :=
  ⟨rfl, rfl, by decide⟩

/-- C3 (amended): for a session with a closed connection, `is_available`
reports `false` and `check_availability` raises the "not available"
`DataSourceError`, but the data operations `select`, `select_one`, `insert`
and `execute` perform no availability check (the guard decorator is commented
out): each behaves exactly as it would on an open connection, its outcome
determined solely by the engine call. -/
theorem C3_data_operations_skip_availability_check (c : ConnState) (s : Option Unit)
    (e : EngineExec) (w cm : Outcome Unit) (h : c.closed = true) :
    SqlSession.is_available { connection := some c, session := s } = false ∧
    SqlSession.check_availability { connection := some c, session := s } =
      Outcome.raises (PyExc.dataSourceError "Current connection is not in available state.") ∧
    SqlSession.select { connection := some c, session := s } e =
      SqlSession.select
        { connection := some { closed := false, invalidated := false }, session := s } e ∧
    SqlSession.select_one { connection := some c, session := s } e =
      SqlSession.select_one
        { connection := some { closed := false, invalidated := false }, session := s } e ∧
    SqlSession.insert { connection := some c, session := s } w cm =
      SqlSession.insert
        { connection := some { closed := false, invalidated := false }, session := s } w cm ∧
    SqlSession.execute { connection := some c, session := s } w cm =
      SqlSession.execute
        { connection := some { closed := false, invalidated := false }, session := s } w cm := by
  have hav : SqlSession.is_available { connection := some c, session := s } = false := by
    simp [SqlSession.is_available, h]
  refine ⟨hav, ?_, rfl, rfl, rfl, rfl⟩
  simp [SqlSession.check_availability, hav]

/-- C3 witness: the amended statement at a concrete closed connection. -/
theorem C3_data_operations_skip_availability_check_witness :
    SqlSession.is_available
        { connection := some { closed := true, invalidated := false }, session := some () } =
      false ∧
    SqlSession.check_availability
        { connection := some { closed := true, invalidated := false }, session := some () } =
      Outcome.raises (PyExc.dataSourceError "Current connection is not in available state.") ∧
    SqlSession.select
        { connection := some { closed := true, invalidated := false }, session := some () }
        (EngineExec.sqlErr "connection closed") =
      SqlSession.select
        { connection := some { closed := false, invalidated := false }, session := some () }
        (EngineExec.sqlErr "connection closed") ∧
    SqlSession.select_one
        { connection := some { closed := true, invalidated := false }, session := some () }
        (EngineExec.sqlErr "connection closed") =
      SqlSession.select_one
        { connection := some { closed := false, invalidated := false }, session := some () }
        (EngineExec.sqlErr "connection closed") ∧
    SqlSession.insert
        { connection := some { closed := true, invalidated := false }, session := some () }
        (Outcome.returns ()) (Outcome.returns ()) =
      SqlSession.insert
        { connection := some { closed := false, invalidated := false }, session := some () }
        (Outcome.returns ()) (Outcome.returns ()) ∧
    SqlSession.execute
        { connection := some { closed := true, invalidated := false }, session := some () }
        (Outcome.returns ()) (Outcome.returns ()) =
      SqlSession.execute
        { connection := some { closed := false, invalidated := false }, session := some () }
        (Outcome.returns ()) (Outcome.returns ()) :=
  C3_data_operations_skip_availability_check { closed := true, invalidated := false } (some ())
    (EngineExec.sqlErr "connection closed") (Outcome.returns ()) (Outcome.returns ()) rfl

/-- C4 (counterexample): after `init` then `close`, the engine reference is
still bound, so `is_initialized` is still `true` and a second `close` passes
the `requires_init` guard and returns normally — refuting the claim that the
second `close` (or any pool-dependent operation after `close`) raises
`DataSourceError`. -/
theorem C4_second_close_does_not_raise :
    DataSource.close (DataSource.init DataSource.mk0) =
      Outcome.returns { engine := some { poolDisposed := true } } ∧
    DataSource.is_initialized { engine := some { poolDisposed := true } } = true ∧
    DataSource.close { engine := some { poolDisposed := true } } =
      Outcome.returns { engine := some { poolDisposed := true } } ∧
    (DataSource.close { engine := some { poolDisposed := true } }).raisesB = false ∧
    DataSource.release_session { engine := some { poolDisposed := true } } =
      Outcome.returns () :=
  ⟨rfl, rfl, rfl, rfl, rfl⟩

/-- C4 (amended): `close` disposes the pool but never unbinds `_engine`, so
after any successful `close` the DataSource still reports `is_initialized`,
a second `close` succeeds (disposing again) rather than raising,
`release_session` succeeds, and `get_session` passes the guard — it raises
only if the engine's own `connect` call raises. -/
theorem C4_close_leaves_engine_bound (st st' : DataSourceState)
    (connect : Outcome ConnState)
    (h : DataSource.close st = Outcome.returns st') :
    DataSource.is_initialized st' = true ∧
    DataSource.close st' = Outcome.returns { engine := some { poolDisposed := true } } ∧
    DataSource.release_session st' = Outcome.returns () ∧
    (DataSource.get_session st' connect).raisesB = connect.raisesB := by
  obtain ⟨eng⟩ := st
  cases eng with
  | none => exact absurd h (by simp [DataSource.close, requires_init,
      DataSource.check_initialization, DataSource.is_initialized])
  | some e =>
    have hst' : st' = { engine := some { poolDisposed := true } } := by
      have hcl : DataSource.close { engine := some e } =
          Outcome.returns { engine := some { poolDisposed := true } } := rfl
      rw [hcl] at h
      exact (Outcome.returns.injEq _ _).mp h.symm |>.symm ▸ rfl
    subst hst'
    refine ⟨rfl, rfl, rfl, ?_⟩
    cases connect <;> rfl

/-- C4 witness: the amended statement at the state produced by
`init` followed by `close`. -/
theorem C4_close_leaves_engine_bound_witness :
    DataSource.is_initialized { engine := some { poolDisposed := true } } = true ∧
    DataSource.close { engine := some { poolDisposed := true } } =
      Outcome.returns { engine := some { poolDisposed := true } } ∧
    DataSource.release_session { engine := some { poolDisposed := true } } =
      Outcome.returns () ∧
    (DataSource.get_session { engine := some { poolDisposed := true } }
        (Outcome.returns { closed := false, invalidated := false })).raisesB =
      (Outcome.returns { closed := false, invalidated := false } : Outcome ConnState).raisesB :=
  C4_close_leaves_engine_bound (DataSource.init DataSource.mk0)
    { engine := some { poolDisposed := true } }
    (Outcome.returns { closed := false, invalidated := false }) rfl

/-- C5: on a DataSource whose `init` was never called, `is_initialized` is
`false` and each guarded operation — `get_session`, `release_session`,
`close` — raises the "pool not initialized" `DataSourceError` from the
`requires_init` guard before doing any other work (for `get_session` the
error is the same whatever the engine's `connect` would do). -/
theorem C5_uninitialized_operations_fail_fast (connect : Outcome ConnState) :
    DataSource.is_initialized DataSource.mk0 = false ∧
    DataSource.get_session DataSource.mk0 connect =
      Outcome.raises (PyExc.dataSourceError
        "database connection pool has not been initialized properly. Maybe something went wrong..") ∧
    DataSource.release_session DataSource.mk0 =
      Outcome.raises (PyExc.dataSourceError
        "database connection pool has not been initialized properly. Maybe something went wrong..") ∧
    DataSource.close DataSource.mk0 =
      Outcome.raises (PyExc.dataSourceError
        "database connection pool has not been initialized properly. Maybe something went wrong..") :=
  ⟨rfl, rfl, rfl, rfl⟩

/-- C6 (counterexample): with a duplicated column name, `dict(zip(...))`
keeps only one key per distinct name, so a mapping has fewer keys than the
column list has entries — refuting the claim for inputs whose N column names
are not distinct. -/
theorem C6_duplicate_columns_drop_keys :
    AbstractDAO.map [("columns", QVal.cols ["a", "a"]),
        ("data", QVal.rows [[PyVal.int 1, PyVal.int 2]])] =
      Outcome.returns [[("a", PyVal.int 2)]] ∧
    ¬ ([("a", PyVal.int 2)] : Row).length = (["a", "a"] : List String).length :=
  ⟨rfl, by decide⟩

/-- C6 (amended): when the N column names are distinct and every row has
exactly N values, `map` returns exactly M mappings in row order, the i-th
being the column names zipped with the i-th row — so each mapping has
exactly the N column names as keys, with the row values positionally
aligned. -/
theorem C6_map_shape (cs : List String) (ds : List (List PyVal))
    (hnd : cs.Nodup) (hlen : ∀ d ∈ ds, d.length = cs.length) :
    AbstractDAO.map [("columns", QVal.cols cs), ("data", QVal.rows ds)] =
      Outcome.returns (ds.map (fun d => cs.zip d)) ∧
    (ds.map (fun d => cs.zip d)).length = ds.length ∧
    ∀ d ∈ ds, (cs.zip d).map Prod.fst = cs ∧ (cs.zip d).map Prod.snd = d := by
  have h1 : AbstractDAO.map [("columns", QVal.cols cs), ("data", QVal.rows ds)] =
      Outcome.returns (ds.map (fun d => dictOfZip cs d)) :=
    map_returns _ cs ds rfl rfl
  have h2 : ds.map (fun d => dictOfZip cs d) = ds.map (fun d => cs.zip d) :=
    List.map_congr_left (fun d hd => dictOfZip_eq_zip cs d hnd (le_of_eq (hlen d hd).symm))
  refine ⟨by rw [h1]; exact congrArg Outcome.returns h2, by simp, ?_⟩
  intro d hd
  exact ⟨List.map_fst_zip cs d (le_of_eq (hlen d hd).symm),
    List.map_snd_zip cs d (le_of_eq (hlen d hd))⟩

/-- C6 witness: the amended statement's map equation at the spec's concrete
scenario. -/
theorem C6_map_shape_witness :
    AbstractDAO.map [("columns", QVal.cols ["id", "name"]),
        ("data", QVal.rows [[PyVal.int 1, PyVal.str "a"], [PyVal.int 2, PyVal.str "b"]])] =
      Outcome.returns [[("id", PyVal.int 1), ("name", PyVal.str "a")],
        [("id", PyVal.int 2), ("name", PyVal.str "b")]] :=
  (C6_map_shape ["id", "name"] [[PyVal.int 1, PyVal.str "a"], [PyVal.int 2, PyVal.str "b"]]
    (by decide) (by decide)).1

/-- C7 (counterexample): with key values 1, 2, 1 the buckets are
`{1: [r1, r3], 2: [r2]}`, and concatenating them in first-seen order yields
`[r1, r3, r2]`, which is not the original mapped-row order `[r1, r2, r3]` —
refuting the claim's clause that the concatenation reproduces `map`'s output
exactly. -/
theorem C7_concatenation_breaks_row_order :
    AbstractDAO.map [("columns", QVal.cols ["id"]),
        ("data", QVal.rows [[PyVal.int 1], [PyVal.int 2], [PyVal.int 1]])] =
      Outcome.returns [[("id", PyVal.int 1)], [("id", PyVal.int 2)], [("id", PyVal.int 1)]] ∧
    AbstractDAO.hash_map [("columns", QVal.cols ["id"]),
        ("data", QVal.rows [[PyVal.int 1], [PyVal.int 2], [PyVal.int 1]])] "id" =
      Outcome.returns [(PyVal.int 1, [[("id", PyVal.int 1)], [("id", PyVal.int 1)]]),
        (PyVal.int 2, [[("id", PyVal.int 2)]])] ∧
    (([(PyVal.int 1, [[("id", PyVal.int 1)], [("id", PyVal.int 1)]]),
        (PyVal.int 2, [[("id", PyVal.int 2)]])].map Prod.snd).flatten ≠
      [[("id", PyVal.int 1)], [("id", PyVal.int 2)], [("id", PyVal.int 1)]]) :=
  ⟨rfl, rfl, by decide⟩

/-- C7 (amended): when `map` succeeds and every mapped row has the key
column, `hash_map` returns exactly the first-seen-ordered grouping
`groupSpec`: bucket keys are the distinct key values in first-seen order
(no duplicates), every row of a bucket has that bucket's key value, each
bucket is a sublist of the mapped rows (within-bucket order preserves row
order), and the concatenation of the buckets is a permutation of `map`'s
output (each mapped row lands in exactly one bucket) — though not
necessarily in the original row order. -/
theorem C7_hash_map_partitions (inp : List (String × QVal)) (key : String)
    (rows : List Row)
    (hmap : AbstractDAO.map inp = Outcome.returns rows)
    (hkeys : ∀ r ∈ rows, (dictGet r key).isSome = true) :
    AbstractDAO.hash_map inp key = Outcome.returns (groupSpec key rows) ∧
    ((groupSpec key rows).map Prod.fst = firstSeen (keysOf key rows) ∧
      (firstSeen (keysOf key rows)).Nodup) ∧
    (∀ k b, (k, b) ∈ groupSpec key rows →
      (∀ r ∈ b, dictGet r key = some k) ∧ b.Sublist rows) ∧
    List.Perm (((groupSpec key rows).map Prod.snd).flatten) rows := by
  refine ⟨hash_map_char inp key rows hmap hkeys, ⟨?_, nodup_firstSeen _⟩, ?_,
    groupSpec_flatten_perm key rows hkeys⟩
  · unfold groupSpec
    rw [List.map_map]
    exact List.map_id _
  · intro k b hb
    exact ⟨groupSpec_key_correct key rows k b hb, groupSpec_bucket_sublist key rows k b hb⟩

/-- C7 witness: the amended statement's `hash_map` equation at the concrete
grouping scenario. -/
theorem C7_hash_map_partitions_witness :
    AbstractDAO.hash_map [("columns", QVal.cols ["id"]),
        ("data", QVal.rows [[PyVal.int 1], [PyVal.int 2], [PyVal.int 1]])] "id" =
      Outcome.returns
        (groupSpec "id" [[("id", PyVal.int 1)], [("id", PyVal.int 2)], [("id", PyVal.int 1)]]) :=
  (C7_hash_map_partitions [("columns", QVal.cols ["id"]),
      ("data", QVal.rows [[PyVal.int 1], [PyVal.int 2], [PyVal.int 1]])] "id"
    [[("id", PyVal.int 1)], [("id", PyVal.int 2)], [("id", PyVal.int 1)]]
    rfl (by decide)).1

/-- C8: leaving a SqlSession scope always attempts `commit` first (and does so
even if nothing was written: the exit path is the same for every session
state), swallows whatever the commit step raises (the exit trace and outcome
are identical for any two commit outcomes), and then unconditionally calls
`close`, whose outcome becomes the outcome of the scope exit. -/
theorem C8_exit_commit_then_close (st : SqlSessionState)
    (ec ec' sc cc : Outcome Unit) :
    (SqlSession.exitScope st ec sc cc).1 =
      [SessionEvent.commitCall, SessionEvent.closeCall] ∧
    (SqlSession.exitScope st ec sc cc).2 = SqlSession.close st sc cc ∧
    SqlSession.exitScope st ec sc cc = SqlSession.exitScope st ec' sc cc :=
  ⟨rfl, rfl, rfl⟩

/-- C9 (counterexample): `kwargs.update({'connect_args': {'connect_timeout': 10}})`
replaces the whole `connect_args` entry, so a caller-supplied connection
option (`sslmode`) is discarded rather than preserved alongside the injected
timeout — refuting the claim that all caller-supplied connection options are
preserved. -/
theorem C9_caller_connect_args_discarded :
    DataSource.createEngineKwargs
        [("connect_args", ConfigVal.dict [("sslmode", PyVal.str "require")])] =
      [("connect_args", ConfigVal.dict [("connect_timeout", PyVal.int 10)])] ∧
    dictGet (DataSource.createEngineKwargs
        [("connect_args", ConfigVal.dict [("sslmode", PyVal.str "require")])])
        "connect_args" ≠
      some (ConfigVal.dict [("sslmode", PyVal.str "require"),
        ("connect_timeout", PyVal.int 10)]) :=
  ⟨rfl, by decide⟩

/-- C9 (amended): `init` passes the positional arguments and every keyword
argument other than `connect_args` through to `create_engine` unchanged, and
unconditionally sets the `connect_args` entry to exactly
`{'connect_timeout': 10}` — wholesale replacement, discarding any
caller-supplied connection options rather than merging with them. -/
theorem C9_init_passthrough_except_connect_args (args : List ConfigVal)
    (kwargs : List (String × ConfigVal)) (k : String) (h : k ≠ "connect_args") :
    (DataSource.createEngineCall args kwargs).1 = args ∧
    dictGet (DataSource.createEngineKwargs kwargs) k = dictGet kwargs k ∧
    dictGet (DataSource.createEngineKwargs kwargs) "connect_args" =
      some (ConfigVal.dict [("connect_timeout", PyVal.int 10)]) :=
  ⟨rfl, dictGet_dictSet_other kwargs "connect_args" k _ h,
    dictGet_dictSet_same kwargs "connect_args" _⟩

/-- C9 witness: the amended statement at a concrete configuration with a
pool-size option and a caller-supplied `connect_args`. -/
theorem C9_init_passthrough_except_connect_args_witness :
    (DataSource.createEngineCall [ConfigVal.prim (PyVal.str "test://mem")]
        [("pool_size", ConfigVal.prim (PyVal.int 5)),
          ("connect_args", ConfigVal.dict [("sslmode", PyVal.str "require")])]).1 =
      [ConfigVal.prim (PyVal.str "test://mem")] ∧
    dictGet (DataSource.createEngineKwargs
        [("pool_size", ConfigVal.prim (PyVal.int 5)),
          ("connect_args", ConfigVal.dict [("sslmode", PyVal.str "require")])])
        "pool_size" =
      dictGet [("pool_size", ConfigVal.prim (PyVal.int 5)),
          ("connect_args", ConfigVal.dict [("sslmode", PyVal.str "require")])] "pool_size" ∧
    dictGet (DataSource.createEngineKwargs
        [("pool_size", ConfigVal.prim (PyVal.int 5)),
          ("connect_args", ConfigVal.dict [("sslmode", PyVal.str "require")])])
        "connect_args" =
      some (ConfigVal.dict [("connect_timeout", PyVal.int 10)]) :=
  C9_init_passthrough_except_connect_args [ConfigVal.prim (PyVal.str "test://mem")]
    [("pool_size", ConfigVal.prim (PyVal.int 5)),
      ("connect_args", ConfigVal.dict [("sslmode", PyVal.str "require")])]
    "pool_size" (by decide)

/-- C10: a freshly constructed SqlSession (no `init`) has `_connection` and
`_session` both `None`: `is_available` is `false`, `check_availability`
raises `DataSourceError`, and `close`, `commit` and `rollback` each raise an
`AttributeError` from the `None` attribute access — none is a safe no-op. -/
theorem C10_fresh_session_unsafe (ec er sc cc : Outcome Unit) :
    SqlSession.is_available SqlSession.mk0 = false ∧
    SqlSession.check_availability SqlSession.mk0 =
      Outcome.raises (PyExc.dataSourceError "Current connection is not in available state.") ∧
    SqlSession.close SqlSession.mk0 sc cc =
      Outcome.raises (PyExc.attributeError "NoneType object has no attribute close") ∧
    SqlSession.commit SqlSession.mk0 ec =
      Outcome.raises (PyExc.attributeError "NoneType object has no attribute commit") ∧
    SqlSession.rollback SqlSession.mk0 er =
      Outcome.raises (PyExc.attributeError "NoneType object has no attribute rollback") :=
  ⟨rfl, rfl, rfl, rfl, rfl⟩
